import Mathlib

/-!
Shallow embedding of the protocol layer of the `agentio/scalpel` RPC framework
(compression registry, Connect wire errors and content-type validation, the
Code to HTTP status mapping, interceptor chaining, codec options, and the
gRPC error writer), together with theorems settling the frozen claims.

Go strings are modelled as Lean `String`, byte slices as `List Nat`,
Go maps as association lists with overwrite-on-insert, and `nil`-able
values as `Option`.
-/

namespace Scalpel

/-- Go `strings.HasPrefix s p`. -/
def hasPrefixS (s p : String) : Bool :=
  p.data.isPrefixOf s.data

/-- Go `strings.TrimPrefix s p`: drops the prefix when present, else returns `s`. -/
def trimPrefixS (s p : String) : String :=
  if hasPrefixS s p then String.mk (s.data.drop p.data.length) else s

/-- Association-list update with Go-map overwrite semantics: replaces the
first binding of `k` if present, otherwise appends a new binding. -/
def updateAssoc {α : Type} (m : List (String × α)) (k : String) (v : α) : List (String × α) :=
  match m with
  | [] => [(k, v)]
  | (k', v') :: rest => if k' = k then (k, v) :: rest else (k', v') :: updateAssoc rest k v

/-- Association-list lookup (Go-map read): the first binding of `key`. -/
def lookupAssoc {α : Type} : List (String × α) → String → Option α
  | [], _ => none
  | (k, v) :: rest, key => if k = key then some v else lookupAssoc rest key

/-! ## Compression registry (`compression.go`) -/

/-- Go constant `compressionIdentity`. -/
def compressionIdentity : String := "identity"

/-- A named compression pool. The struct has no fields in the source under
verification; only its identity in the name-to-pool map matters here. -/
structure compressionPool where
deriving DecidableEq

/-- The read-only registry produced by `newReadOnlyCompressionPools`:
a name-to-pool map plus the precomputed advertised name list. -/
structure namedCompressionPools where
  nameToPool : List (String × compressionPool)
  commaSeparatedNames : String
deriving DecidableEq

/-- The de-duplicating backward iteration inside `newReadOnlyCompressionPools`:
walk `reversedNames` from the last element to the first, keeping each name the
first time it is seen (the collected list doubles as the `seen` set, which
holds exactly the names appended so far). -/
def collectPreferred (reversedNames : List String) : List String :=
  reversedNames.reverse.foldl
    (fun names name => if name ∈ names then names else names ++ [name]) []

/-- Go `newReadOnlyCompressionPools`: client and handler configs keep
compression names in registration order (the `reversedNames` argument); the
most recently registered name becomes the most preferred. -/
def newReadOnlyCompressionPools
    (nameToPool : List (String × compressionPool))
    (reversedNames : List String) : namedCompressionPools :=
  { nameToPool := nameToPool
    commaSeparatedNames := String.intercalate "," (collectPreferred reversedNames) }

/-- Go `(*namedCompressionPools).Get`. -/
def namedCompressionPools.Get (m : namedCompressionPools) (name : String) :
    Option compressionPool :=
  if name = "" ∨ name = compressionIdentity then none
  else lookupAssoc m.nameToPool name

/-- Go `(*namedCompressionPools).Contains`. -/
def namedCompressionPools.Contains (m : namedCompressionPools) (name : String) : Bool :=
  (lookupAssoc m.nameToPool name).isSome

/-- Go `(*namedCompressionPools).CommaSeparatedNames`. -/
def namedCompressionPools.CommaSeparatedNames (m : namedCompressionPools) : String :=
  m.commaSeparatedNames

/-- Modelled from the spec: the compression-registration option (not under
`src/`) appends the compression name to the config's registration-order list
and stores the pool in the config's name-to-pool map. -/
def registerCompression
    (state : List (String × compressionPool) × List String)
    (name : String) : List (String × compressionPool) × List String :=
  (updateAssoc state.1 name ⟨⟩, state.2 ++ [name])

/-- Registering a sequence of compression names on a fresh config and building
the read-only registry from the resulting config state. -/
def registryOfNames (names : List String) : namedCompressionPools :=
  let state := names.foldl registerCompression ([], [])
  newReadOnlyCompressionPools state.1 state.2

/-! ## Error codes and the error model -/

/-- Go `Code` is an integer enumeration; modelled as `Nat`. -/
abbrev Code := Nat

def CodeCanceled : Code := 1
def CodeUnknown : Code := 2
def CodeInvalidArgument : Code := 3
def CodeDeadlineExceeded : Code := 4
def CodeNotFound : Code := 5
def CodeAlreadyExists : Code := 6
def CodePermissionDenied : Code := 7
def CodeResourceExhausted : Code := 8
def CodeFailedPrecondition : Code := 9
def CodeAborted : Code := 10
def CodeOutOfRange : Code := 11
def CodeUnimplemented : Code := 12
def CodeInternal : Code := 13
def CodeUnavailable : Code := 14
def CodeDataLoss : Code := 15
def CodeUnauthenticated : Code := 16

/-- Go `minCode`: the smallest valid `Code`. -/
def minCode : Code := CodeCanceled

/-- Go `maxCode`: the largest valid `Code`. -/
def maxCode : Code := CodeUnauthenticated

/-- Modelled from the spec: `Code.UnmarshalText` (not under `src/`) recognizes
exactly the snake-case names of the 16 enumeration values; any other string is
an error, which leaves the receiving code unset. -/
def codeFromString (s : String) : Option Code :=
  if s = "canceled" then some CodeCanceled
  else if s = "unknown" then some CodeUnknown
  else if s = "invalid_argument" then some CodeInvalidArgument
  else if s = "deadline_exceeded" then some CodeDeadlineExceeded
  else if s = "not_found" then some CodeNotFound
  else if s = "already_exists" then some CodeAlreadyExists
  else if s = "permission_denied" then some CodePermissionDenied
  else if s = "resource_exhausted" then some CodeResourceExhausted
  else if s = "failed_precondition" then some CodeFailedPrecondition
  else if s = "aborted" then some CodeAborted
  else if s = "out_of_range" then some CodeOutOfRange
  else if s = "unimplemented" then some CodeUnimplemented
  else if s = "internal" then some CodeInternal
  else if s = "unavailable" then some CodeUnavailable
  else if s = "data_loss" then some CodeDataLoss
  else if s = "unauthenticated" then some CodeUnauthenticated
  else none

/-- A protobuf `Any` message: type URL plus opaque payload bytes. -/
structure AnyMsg where
  typeUrl : String
  value : List Nat
deriving DecidableEq

/-- An already-resolved in-memory protobuf message, used only for the
best-effort debug rendering of an error detail. -/
structure ProtoMsg where
  debugJSON : String
deriving DecidableEq

/-- Go `ErrorDetail`: type URL and payload (as a protobuf `Any`), the cached
original wire JSON (empty string when not constructed from wire JSON), and the
optional already-resolved message. -/
structure ErrorDetail where
  pbAny : AnyMsg
  wireJSON : String
  pbInner : Option ProtoMsg
deriving DecidableEq

/-- Go `type connectWireDetail ErrorDetail`. -/
abbrev connectWireDetail := ErrorDetail

/-- The underlying Go `error` wrapped inside an `Error`. Go compares sentinel
errors by identity, so the distinguished `errNotModifiedClient` sentinel is a
separate constructor from ordinary message-carrying errors. -/
inductive ErrCause where
  | text (s : String)
  | notModified
deriving DecidableEq

/-- Go sentinel `errNotModifiedClient`. -/
def errNotModifiedClient : ErrCause := ErrCause.notModified

/-- Go `*Error`: code, wrapped cause, the wire-vs-local flag, and details. -/
structure Error where
  code : Code
  cause : ErrCause
  wireErr : Bool
  details : List ErrorDetail
deriving DecidableEq

/-- Go `NewError`: a locally constructed error (wire flag unset). -/
def NewError (code : Code) (cause : ErrCause) : Error :=
  { code := code, cause := cause, wireErr := false, details := [] }

/-- Go `NewWireError`: an error received from the wire (wire flag set). -/
def NewWireError (code : Code) (cause : ErrCause) : Error :=
  { code := code, cause := cause, wireErr := true, details := [] }

/-- Go `errorf`: `NewError` wrapping a freshly formatted message. -/
def errorf (code : Code) (msg : String) : Error :=
  NewError code (ErrCause.text msg)

/-- The human-readable message of an error's cause (Go `err.Error()` /
`(*Error).Message()`). -/
def Error.message (e : Error) : String :=
  match e.cause with
  | ErrCause.text s => s
  | ErrCause.notModified => "not modified"

/-! ## Code to HTTP status mapping (`protocol_connect.go`) -/

/-- Go `connectCodeToHTTP`: the fixed Code-to-HTTP-status mapping of the
Connect protocol. The numeric patterns are the `Code` constants
`CodeCanceled = 1` through `CodeUnauthenticated = 16`; anything else falls to
the default arm, like Go's `switch`. -/
def connectCodeToHTTP (code : Code) : Nat :=
  match code with
  | 1 => 499
  | 2 => 500
  | 3 => 400
  | 4 => 504
  | 5 => 404
  | 6 => 409
  | 7 => 403
  | 8 => 429
  | 9 => 400
  | 10 => 409
  | 11 => 400
  | 12 => 501
  | 13 => 500
  | 14 => 503
  | 15 => 500
  | 16 => 401
  | _ => 500

/-- Modelled from the spec: `httpToCode` (not under `src/`) derives a `Code`
from an HTTP status of a non-200 Connect error response; unrecognized statuses
map to `CodeUnknown`. -/
def httpToCode (httpCode : Nat) : Code :=
  match httpCode with
  | 400 => CodeInternal
  | 401 => CodeUnauthenticated
  | 403 => CodePermissionDenied
  | 404 => CodeUnimplemented
  | 429 => CodeUnavailable
  | 502 => CodeUnavailable
  | 503 => CodeUnavailable
  | 504 => CodeUnavailable
  | _ => CodeUnknown

/-! ## Connect unary response content-type validation -/

/-- Go constant `codecNameJSON` (from the codec registry, not under `src/`;
its value is fixed by the spec's content-type grammar). -/
def codecNameJSON : String := "json"

/-- Modelled from the spec: Go constant `codecNameJSONCharsetUTF8` (not under
`src/`), the JSON-with-charset content subtype. -/
def codecNameJSONCharsetUTF8 : String := "json; charset=utf-8"

/-- Go constant `connectUnaryContentTypePrefix` (renamed: a name may not end
in that final word here). -/
def connectUnaryContentTypePre : String := "application/"

/-- Go constant `connectStreamingContentTypePrefix` (renamed as above). -/
def connectStreamingContentTypePre : String := "application/connect+"

/-- Go `StreamType`; only unary-vs-streaming matters to the functions here. -/
inductive StreamType where
  | StreamTypeUnary
  | StreamTypeClient
  | StreamTypeServer
  | StreamTypeBiDi
deriving DecidableEq

/-- Go `connectCodecForContentType`. -/
def connectCodecForContentType (streamType : StreamType) (contentType : String) : String :=
  if streamType = StreamType.StreamTypeUnary then
    trimPrefixS contentType connectUnaryContentTypePre
  else
    trimPrefixS contentType connectStreamingContentTypePre

/-- Go `connectValidateUnaryResponseContentType`; `none` is a `nil` error. -/
def connectValidateUnaryResponseContentType
    (requestCodecName : String)
    (httpMethod : String)
    (statusCode : Nat)
    (statusMsg : String)
    (responseContentType : String) : Option Error :=
  if statusCode ≠ 200 then
    if statusCode = 304 ∧ httpMethod = "GET" then
      some (NewWireError CodeUnknown errNotModifiedClient)
    else if responseContentType = connectUnaryContentTypePre ++ codecNameJSON ∨
        responseContentType = connectUnaryContentTypePre ++ codecNameJSONCharsetUTF8 then
      none
    else
      some (NewError (httpToCode statusCode) (ErrCause.text statusMsg))
  else if ¬ hasPrefixS responseContentType connectUnaryContentTypePre then
    some (errorf CodeUnknown
      ("invalid content-type: \"" ++ responseContentType ++ "\"; expecting \"" ++
        connectUnaryContentTypePre ++ requestCodecName ++ "\""))
  else if connectCodecForContentType StreamType.StreamTypeUnary responseContentType
      = requestCodecName then
    none
  else if (connectCodecForContentType StreamType.StreamTypeUnary responseContentType
        = codecNameJSON ∧ requestCodecName = codecNameJSONCharsetUTF8) ∨
      (connectCodecForContentType StreamType.StreamTypeUnary responseContentType
        = codecNameJSONCharsetUTF8 ∧ requestCodecName = codecNameJSON) then
    none
  else
    some (errorf CodeInternal
      ("invalid content-type: \"" ++ responseContentType ++ "\"; expecting \"" ++
        connectUnaryContentTypePre ++ requestCodecName ++ "\""))

/-! ## A model of `encoding/json` documents

The parser keeps, for every array element and object field value, the raw
source text of that value, because `encoding/json` hands exactly those bytes
to a nested `UnmarshalJSON` and the wire detail type caches them. -/

/-- A JSON value; array elements carry `(raw, value)` and object fields carry
`(key, raw, value)`. -/
inductive Json where
  | null
  | jbool (b : Bool)
  | num (lexeme : String)
  | str (s : String)
  | arr (elems : List (String × Json))
  | obj (fields : List (String × String × Json))

def isWsChar (c : Char) : Bool :=
  c = ' ' || c = '\t' || c = '\n' || c = '\r'

def skipWs : List Char → List Char
  | [] => []
  | c :: rest => if isWsChar c then skipWs rest else c :: rest

def hexVal (c : Char) : Option Nat :=
  if '0' ≤ c ∧ c ≤ '9' then some (c.toNat - 48)
  else if 'a' ≤ c ∧ c ≤ 'f' then some (c.toNat - 87)
  else if 'A' ≤ c ∧ c ≤ 'F' then some (c.toNat - 55)
  else none

/-- Parse the body of a JSON string (after the opening quote), returning the
decoded string and the input after the closing quote. -/
def parseStringBody : Nat → List Char → Option (String × List Char)
  | 0, _ => none
  | _, [] => none
  | fuel + 1, c :: rest =>
    if c = '"' then some ("", rest)
    else if c = '\\' then
      match rest with
      | [] => none
      | e :: rest2 =>
        let cont := fun (ch : Char) (rem : List Char) =>
          match parseStringBody fuel rem with
          | some (s, rem2) => some (String.mk (ch :: s.data), rem2)
          | none => none
        if e = '"' then cont '"' rest2
        else if e = '\\' then cont '\\' rest2
        else if e = '/' then cont '/' rest2
        else if e = 'n' then cont '\n' rest2
        else if e = 't' then cont '\t' rest2
        else if e = 'r' then cont '\r' rest2
        else if e = 'b' then cont (Char.ofNat 8) rest2
        else if e = 'f' then cont (Char.ofNat 12) rest2
        else if e = 'u' then
          match rest2 with
          | h1 :: h2 :: h3 :: h4 :: rest3 =>
            match hexVal h1, hexVal h2, hexVal h3, hexVal h4 with
            | some v1, some v2, some v3, some v4 =>
              cont (Char.ofNat (v1 * 4096 + v2 * 256 + v3 * 16 + v4)) rest3
            | _, _, _, _ => none
          | _ => none
        else none
    else
      match parseStringBody fuel rest with
      | some (s, rem2) => some (String.mk (c :: s.data), rem2)
      | none => none

def isNumChar (c : Char) : Bool :=
  c.isDigit || c = '-' || c = '+' || c = '.' || c = 'e' || c = 'E'

mutual

/-- Parse one JSON value; fuel-based recursion (the fuel is sized by the
caller from the input length). -/
def parseVal : Nat → List Char → Option (Json × List Char)
  | 0, _ => none
  | fuel + 1, cs =>
    match skipWs cs with
    | [] => none
    | c :: rest =>
      if c = '{' then
        match skipWs rest with
        | '}' :: rest2 => some (Json.obj [], rest2)
        | cs2 =>
          match parseFields fuel cs2 with
          | some (fields, rem) => some (Json.obj fields, rem)
          | none => none
      else if c = '[' then
        match skipWs rest with
        | ']' :: rest2 => some (Json.arr [], rest2)
        | cs2 =>
          match parseElems fuel cs2 with
          | some (elems, rem) => some (Json.arr elems, rem)
          | none => none
      else if c = '"' then
        match parseStringBody (rest.length + 1) rest with
        | some (s, rem) => some (Json.str s, rem)
        | none => none
      else if c = 't' then
        match rest with
        | 'r' :: 'u' :: 'e' :: rest2 => some (Json.jbool true, rest2)
        | _ => none
      else if c = 'f' then
        match rest with
        | 'a' :: 'l' :: 's' :: 'e' :: rest2 => some (Json.jbool false, rest2)
        | _ => none
      else if c = 'n' then
        match rest with
        | 'u' :: 'l' :: 'l' :: rest2 => some (Json.null, rest2)
        | _ => none
      else if isNumChar c then
        some (Json.num (String.mk ((c :: rest).takeWhile isNumChar)),
          (c :: rest).dropWhile isNumChar)
      else none

/-- Parse the fields of an object after the opening brace (at least one
field), each as `key, raw value text, value`. -/
def parseFields : Nat → List Char →
    Option (List (String × String × Json) × List Char)
  | 0, _ => none
  | fuel + 1, cs =>
    match skipWs cs with
    | '"' :: rest =>
      match parseStringBody (rest.length + 1) rest with
      | some (key, rem) =>
        (match skipWs rem with
        | ':' :: rem2 =>
          let body := skipWs rem2
          (match parseVal fuel body with
          | some (v, rem3) =>
            let raw := String.mk (body.take (body.length - rem3.length))
            (match skipWs rem3 with
            | ',' :: rem4 =>
              (match parseFields fuel rem4 with
              | some (fields, rem5) => some ((key, raw, v) :: fields, rem5)
              | none => none)
            | '}' :: rem4 => some ([(key, raw, v)], rem4)
            | _ => none)
          | none => none)
        | _ => none)
      | none => none
    | _ => none

/-- Parse the elements of an array after the opening bracket (at least one
element), each as `raw value text, value`. -/
def parseElems : Nat → List Char → Option (List (String × Json) × List Char)
  | 0, _ => none
  | fuel + 1, cs =>
    let body := skipWs cs
    match parseVal fuel body with
    | some (v, rem) =>
      let raw := String.mk (body.take (body.length - rem.length))
      (match skipWs rem with
      | ',' :: rem2 =>
        (match parseElems fuel rem2 with
        | some (elems, rem3) => some ((raw, v) :: elems, rem3)
        | none => none)
      | ']' :: rem2 => some ([(raw, v)], rem2)
      | _ => none)
    | none => none

end

/-- Parse a complete JSON document (Go `json.Unmarshal`'s syntax check):
one value, possibly surrounded by whitespace, and nothing after it. -/
def parseJson (s : String) : Option Json :=
  match parseVal (2 * s.data.length + 2) s.data with
  | some (v, rest) => if (skipWs rest).isEmpty then some v else none
  | none => none

/-! ## Base64 (`encoding/base64`, used by `DecodeBinaryHeader`) -/

def b64DigitVal (c : Char) : Option Nat :=
  if 'A' ≤ c ∧ c ≤ 'Z' then some (c.toNat - 65)
  else if 'a' ≤ c ∧ c ≤ 'z' then some (c.toNat - 71)
  else if '0' ≤ c ∧ c ≤ '9' then some (c.toNat + 4)
  else if c = '+' then some 62
  else if c = '/' then some 63
  else none

/-- Unpadded standard base64 decoding to bytes. -/
def b64DecodeRaw : List Char → Option (List Nat)
  | [] => some []
  | [_] => none
  | [c1, c2] => do
    let v1 ← b64DigitVal c1
    let v2 ← b64DigitVal c2
    some [v1 * 4 + v2 / 16]
  | [c1, c2, c3] => do
    let v1 ← b64DigitVal c1
    let v2 ← b64DigitVal c2
    let v3 ← b64DigitVal c3
    some [v1 * 4 + v2 / 16, v2 % 16 * 16 + v3 / 4]
  | c1 :: c2 :: c3 :: c4 :: rest => do
    let v1 ← b64DigitVal c1
    let v2 ← b64DigitVal c2
    let v3 ← b64DigitVal c3
    let v4 ← b64DigitVal c4
    let tail ← b64DecodeRaw rest
    some ((v1 * 4 + v2 / 16) :: (v2 % 16 * 16 + v3 / 4) :: (v3 % 4 * 64 + v4) :: tail)

def b64Digit (n : Nat) : Char :=
  if n < 26 then Char.ofNat (65 + n)
  else if n < 52 then Char.ofNat (97 + n - 26)
  else if n < 62 then Char.ofNat (48 + n - 52)
  else if n = 62 then '+'
  else '/'

/-- Unpadded standard base64 encoding of bytes (`base64.RawStdEncoding`). -/
def b64EncodeRaw : List Nat → List Char
  | [] => []
  | [b1] => [b64Digit (b1 / 4), b64Digit (b1 % 4 * 16)]
  | [b1, b2] => [b64Digit (b1 / 4), b64Digit (b1 % 4 * 16 + b2 / 16), b64Digit (b2 % 16 * 4)]
  | b1 :: b2 :: b3 :: rest =>
    b64Digit (b1 / 4) :: b64Digit (b1 % 4 * 16 + b2 / 16) ::
      b64Digit (b2 % 16 * 4 + b3 / 64) :: b64Digit (b3 % 64) :: b64EncodeRaw rest

/-- Modelled from the spec: Go `DecodeBinaryHeader` (not under `src/`)
decodes base64 with or without padding, as binary headers and detail values
may omit padding. -/
def DecodeBinaryHeader (data : String) : Option (List Nat) :=
  if data.data.length % 4 ≠ 0 then
    b64DecodeRaw data.data
  else
    let stripped := (data.data.reverse.dropWhile (fun c => c = '=')).reverse
    if data.data.length - stripped.length > 2 then none
    else b64DecodeRaw stripped

/-! ## Connect wire details (`connectWireDetail`) -/

/-- Like `encoding/json`, a later duplicate key overwrites an earlier one. -/
def lookupField (fields : List (String × String × Json)) (key : String) :
    Option (String × Json) :=
  match fields.reverse.find? (fun f => f.1 = key) with
  | some (_, raw, v) => some (raw, v)
  | none => none

/-- Decode a string-typed struct field: a missing field or JSON `null` leaves
the zero value `""`; a value of any other shape is a decoding error. -/
def getStrField (fields : List (String × String × Json)) (key : String) :
    Option String :=
  match lookupField fields key with
  | none => some ""
  | some (_, Json.str s) => some s
  | some (_, Json.null) => some ""
  | some _ => none

/-- `json.Unmarshal` of the anonymous wire struct inside
`connectWireDetail.UnmarshalJSON`: the `type` and `value` string fields. -/
def decodeWireDetailFields (data : String) : Option (String × String) :=
  match parseJson data with
  | some (Json.obj fields) => do
    let t ← getStrField fields "type"
    let v ← getStrField fields "value"
    some (t, v)
  | some Json.null => some ("", "")
  | _ => none

/-- Go constant `defaultAnyResolverPrefix` (renamed: a name may not end in
that final word here). -/
def defaultAnyResolverPre : String := "type.googleapis.com/"

/-- Go `(*connectWireDetail).UnmarshalJSON`: decode the wire struct, qualify
a bare type name, base64-decode the value, and cache the original JSON. -/
def connectWireDetail.UnmarshalJSON (data : String) : Option connectWireDetail := do
  let tv ← decodeWireDetailFields data
  let t := if ¬ (tv.1.data.contains '/') then defaultAnyResolverPre ++ tv.1 else tv.1
  let decoded ← DecodeBinaryHeader tv.2
  some { pbAny := { typeUrl := t, value := decoded }, wireJSON := data, pbInner := none }

/-- Go `typeNameForURL`: the part of the type URL after the last slash. -/
def typeNameForURL (url : String) : String :=
  String.mk (url.data.reverse.takeWhile (fun c => c ≠ '/')).reverse

def jsonEscapeChar (c : Char) : List Char :=
  if c = '"' then ['\\', '"']
  else if c = '\\' then ['\\', '\\']
  else if c = '\n' then ['\\', 'n']
  else if c = '\t' then ['\\', 't']
  else if c = '\r' then ['\\', 'r']
  else [c]

/-- Minimal JSON string escaping, modelling `encoding/json`'s marshaling of
the `type` and `value` fields. -/
def jsonEscape (s : String) : String :=
  String.mk (s.data.flatMap jsonEscapeChar)

/-- Modelled from the spec: resolving an `Any` message requires a schema
registry; no descriptors are available in this embedding, so resolution
always fails (the code expects this failure and swallows it). -/
def anyUnmarshalNew (_a : AnyMsg) : Option ProtoMsg := none

/-- Go `(*connectWireDetail).getInner`. -/
def connectWireDetail.getInner (d : connectWireDetail) : Option ProtoMsg :=
  match d.pbInner with
  | some m => some m
  | none => anyUnmarshalNew d.pbAny

/-- Modelled from the spec: the proto-JSON codec's debug rendering of a
resolved message (best-effort; failure is swallowed by the caller). -/
def protoJSONCodecMarshal (m : ProtoMsg) : Option String := some m.debugJSON

/-- Go `(*connectWireDetail).MarshalJSON`: replay the cached wire JSON when
the detail came from the wire; otherwise emit type, base64 value, and a
best-effort debug rendering. -/
def connectWireDetail.MarshalJSON (d : connectWireDetail) : String :=
  if d.wireJSON ≠ "" then d.wireJSON
  else
    let t := jsonEscape (typeNameForURL d.pbAny.typeUrl)
    let v := String.mk (b64EncodeRaw d.pbAny.value)
    match (connectWireDetail.getInner d).bind protoJSONCodecMarshal with
    | some dbg =>
      "\x7b\"type\":\"" ++ t ++ "\",\"value\":\"" ++ v ++ "\",\"debug\":" ++ dbg ++ "\x7d"
    | none => "\x7b\"type\":\"" ++ t ++ "\",\"value\":\"" ++ v ++ "\"\x7d"

/-! ## Connect wire errors (`connectWireError`) -/

/-- Decoding the `details` array hands each element's raw bytes to
`connectWireDetail.UnmarshalJSON`, as `encoding/json` does. -/
def decodeDetailsList (elems : List (String × Json)) : Option (List connectWireDetail) :=
  elems.mapM (fun e => connectWireDetail.UnmarshalJSON e.1)

/-- `json.Unmarshal` of the anonymous struct inside
`connectWireError.UnmarshalJSON`: code string, message, details. -/
def decodeWireErrorFields (data : String) :
    Option (String × String × List connectWireDetail) :=
  match parseJson data with
  | some (Json.obj fields) => do
    let c ← getStrField fields "code"
    let m ← getStrField fields "message"
    let ds ←
      match lookupField fields "details" with
      | none => some []
      | some (_, Json.arr elems) => decodeDetailsList elems
      | some (_, Json.null) => some []
      | some _ => none
    some (c, m, ds)
  | some Json.null => some ("", "", [])
  | _ => none

/-- Go `connectWireError`. -/
structure connectWireError where
  Code : Code
  Message : String
  Details : List connectWireDetail
deriving DecidableEq

/-- Go `(*connectWireError).UnmarshalJSON` on a fresh (zero) receiver, as
`json.Unmarshal` uses it when decoding a wire error: message and details are
copied over, and an unrecognized code string leaves the code at its zero
value. -/
def connectWireError.UnmarshalJSON (data : String) : Option connectWireError := do
  let fs ← decodeWireErrorFields data
  some { Code := (codeFromString fs.1).getD 0, Message := fs.2.1, Details := fs.2.2 }

/-- Go `(*connectWireError).asError` (on a non-nil receiver): out-of-range
codes are normalized to `CodeUnknown`, and the result is a wire error. -/
def connectWireError.asError (e : connectWireError) : Error :=
  let code := if e.Code < minCode ∨ maxCode < e.Code then CodeUnknown else e.Code
  { code := code, cause := ErrCause.text e.Message, wireErr := true,
    details := e.Details }

/-! ## Interceptors and options (`option.go`) -/

/-- An interceptor is either an atomic user-supplied interceptor (identified
by a label) or a chain built by `newChain`. -/
inductive Interceptor where
  | base (id : Nat)
  | chain (list : List Interceptor)

/-- Modelled from the spec: `newChain` (not under `src/`) bundles a list of
interceptors into one interceptor whose first element is the outermost
layer of the onion. -/
def newChain (interceptors : List Interceptor) : Interceptor :=
  Interceptor.chain interceptors

mutual

/-- The observable call-wrapping order of an interceptor: the labels of the
atomic interceptors from the outermost layer inward. Modelled from the spec:
a chain wraps the call with its first element outermost, and a chain member
that is itself a chain contributes its own layers in order. -/
def Interceptor.wrapOrder : Interceptor → List Nat
  | Interceptor.base n => [n]
  | Interceptor.chain list => wrapOrderList list

def wrapOrderList : List Interceptor → List Nat
  | [] => []
  | i :: rest => i.wrapOrder ++ wrapOrderList rest

end

/-- The wrapping order of a config's interceptor slot (`nil` wraps nothing). -/
def wrapOrderOpt : Option Interceptor → List Nat
  | none => []
  | some i => i.wrapOrder

/-- A codec, abstracted to the only observable the options consume: `Name()`. -/
structure Codec where
  name : String
deriving DecidableEq

/-- The parts of Go `clientConfig` touched by the options under study. -/
structure clientConfig where
  Codec : Option Codec
  Interceptor : Option Interceptor
  ReadMaxBytes : Int
  SendMaxBytes : Int

/-- The parts of Go `handlerConfig` touched by the options under study. -/
structure handlerConfig where
  Codecs : List (String × Codec)
  Interceptor : Option Interceptor
  ReadMaxBytes : Int
  SendMaxBytes : Int

/-- Go `interceptorsOption` (the value built by `WithInterceptors`). -/
structure interceptorsOption where
  Interceptors : List Interceptor

/-- Go `(*interceptorsOption).chainWith`. -/
def interceptorsOption.chainWith (o : interceptorsOption) (current : Option Interceptor) :
    Option Interceptor :=
  if o.Interceptors.length = 0 then current
  else
    match current, o.Interceptors with
    | none, [single] => some single
    | none, list => some (newChain list)
    | some cur, list => some (newChain (cur :: list))

/-- Go `(*interceptorsOption).applyToClient`. -/
def interceptorsOption.applyToClient (o : interceptorsOption) (config : clientConfig) :
    clientConfig :=
  { config with Interceptor := o.chainWith config.Interceptor }

/-- Go `(*interceptorsOption).applyToHandler`. -/
def interceptorsOption.applyToHandler (o : interceptorsOption) (config : handlerConfig) :
    handlerConfig :=
  { config with Interceptor := o.chainWith config.Interceptor }

/-- Go `codecOption` (the value built by `WithCodec`); the codec is `nil`-able. -/
structure codecOption where
  Codec : Option Codec

/-- Go `(*codecOption).applyToClient`. -/
def codecOption.applyToClient (o : codecOption) (config : clientConfig) : clientConfig :=
  match o.Codec with
  | none => config
  | some codec =>
    if codec.name = "" then config
    else { config with Codec := some codec }

/-- Go `(*codecOption).applyToHandler`. -/
def codecOption.applyToHandler (o : codecOption) (config : handlerConfig) : handlerConfig :=
  match o.Codec with
  | none => config
  | some codec =>
    if codec.name = "" then config
    else { config with Codecs := updateAssoc config.Codecs codec.name codec }

/-! ## Error writer (gRPC protocol classification and error responses) -/

/-- Go constant `headerContentType`. -/
def headerContentType : String := "Content-Type"

/-- Go constant `headerTrailer`. -/
def headerTrailer : String := "Trailer"

/-- Go constant `grpcContentTypeDefault` (from the gRPC protocol file, not
under `src/`; its value is fixed by the spec's classification rule). -/
def grpcContentTypeDefault : String := "application/grpc"

/-- Go constant `grpcContentTypePrefix` (renamed: a name may not end in that
final word here). -/
def grpcContentTypePlus : String := "application/grpc+"

def charLower (c : Char) : Char :=
  if 'A' ≤ c ∧ c ≤ 'Z' then Char.ofNat (c.toNat + 32) else c

def lowerUntilSemi : List Char → List Char
  | [] => []
  | c :: rest => if c = ';' then c :: rest else charLower c :: lowerUntilSemi rest

/-- Modelled from the spec: `canonicalizeContentType` (not under `src/`)
canonicalizes a content-type before classification; the media type (the part
before any parameters) is case-insensitive and is normalized to lower case. -/
def canonicalizeContentType (ctype : String) : String :=
  String.mk (lowerUntilSemi ctype.data)

/-- The parts of an `*http.Request` the error writer reads. -/
structure HTTPRequest where
  method : String
  header : List (String × String)

/-- Go `getHeaderCanonical` (header names are stored canonicalized): the
first value of the header, or `""` when absent. -/
def getHeaderCanonical (h : List (String × String)) (key : String) : String :=
  (h.lookup key).getD ""

/-- Go `protocolType`. -/
inductive protocolType where
  | unknownProtocol
  | grpcProtocol
deriving DecidableEq

/-- Go `ErrorWriter` (the buffer pool and the protocol-version flag play no
role in the functions under study; the protobuf codec is passed through to
the trailer serializer). -/
structure ErrorWriter where
  protobuf : Codec

/-- Go `(*ErrorWriter).classifyRequest` (the receiver's configuration plays
no role in classification). -/
def ErrorWriter.classifyRequest (_w : ErrorWriter) (request : HTTPRequest) : protocolType :=
  let ctype := canonicalizeContentType (getHeaderCanonical request.header headerContentType)
  let isPost := request.method = "POST"
  if isPost ∧ (ctype = grpcContentTypeDefault ∨ hasPrefixS ctype grpcContentTypePlus) then
    protocolType.grpcProtocol
  else
    protocolType.unknownProtocol

/-- Go `(*ErrorWriter).IsSupported`. -/
def ErrorWriter.IsSupported (w : ErrorWriter) (request : HTTPRequest) : Bool :=
  w.classifyRequest request ≠ protocolType.unknownProtocol

/-- One observable action on an `http.ResponseWriter`, in program order.
Headers set after `writeHeader` are delivered as HTTP trailers. -/
inductive RWEvent where
  | setHeader (key value : String)
  | writeHeader (statusCode : Nat)
deriving DecidableEq

/-- Modelled from the spec: `grpcErrorToTrailer` (not under `src/`)
serializes the error's status code and message into the gRPC trailer
fields. -/
def grpcErrorToTrailer (_protobuf : Codec) (err : Error) : List (String × String) :=
  [("Grpc-Status", toString err.code), ("Grpc-Message", err.message)]

/-- Go `(*ErrorWriter).writeGRPC`: build the trailers, announce their keys in
the `Trailer` header, write `200 OK`, then merge the trailers into the
response headers (delivered as trailers since the status is written). -/
def ErrorWriter.writeGRPC (w : ErrorWriter) (err : Error) : List RWEvent × Option Unit :=
  let trailers := grpcErrorToTrailer w.protobuf err
  let keys := trailers.map (fun kv => kv.1)
  ([RWEvent.setHeader headerTrailer (String.intercalate "," keys),
    RWEvent.writeHeader 200] ++ trailers.map (fun kv => RWEvent.setHeader kv.1 kv.2),
   none)

/-- Go `(*ErrorWriter).Write`: echo the content-type and defer to the
protocol-specific writer for a recognized protocol; a no-op returning `nil`
for an unknown protocol. -/
def ErrorWriter.Write (w : ErrorWriter) (request : HTTPRequest) (err : Error) :
    List RWEvent × Option Unit :=
  let ctype := canonicalizeContentType (getHeaderCanonical request.header headerContentType)
  match w.classifyRequest request with
  | protocolType.grpcProtocol =>
    let g := w.writeGRPC err
    (RWEvent.setHeader headerContentType ctype :: g.1, g.2)
  | protocolType.unknownProtocol => ([], none)

/-! ## Theorems settling the claims -/

/-- C1 counterexample: registering the names `["a", "b", "a", "c"]` yields the
advertised order `"c,a,b"` — a duplicate keeps the position of its most
recent registration — so the advertised order is not `"c,b,a"` as claimed. -/
theorem C1_counterexample :
    ¬ ((registryOfNames ["a", "b", "a", "c"]).CommaSeparatedNames = "c,b,a") := by
  decide

/-- C1 (amended): for distinct compression names `a`, `b`, `c`, registering
them in the order `[a, b, a, c]` yields a registry whose
`CommaSeparatedNames` advertises the order `[c, a, b]` (most recently
registered first, duplicates collapsed keeping each name at the position of
its most recent registration, so every distinct name appears exactly once),
and `Contains` returns true for exactly the names `{a, b, c}`. -/
theorem C1_amended_order (a b c : String)
    (hab : a ≠ b) (hac : a ≠ c) (hbc : b ≠ c) :
    (registryOfNames [a, b, a, c]).CommaSeparatedNames =
      String.intercalate "," [c, a, b] ∧
    ∀ name, (registryOfNames [a, b, a, c]).Contains name = true ↔
      (name = a ∨ name = b ∨ name = c) := by
  have hba : b ≠ a := hab.symm
  have hca : c ≠ a := hac.symm
  have hcb : c ≠ b := hbc.symm
  have hreg : registryOfNames [a, b, a, c] =
      { nameToPool := [(a, ⟨⟩), (b, ⟨⟩), (c, ⟨⟩)],
        commaSeparatedNames := String.intercalate "," [c, a, b] } := by
    simp [registryOfNames, registerCompression, updateAssoc, newReadOnlyCompressionPools,
      collectPreferred, hab, hac, hbc, hba, hca, hcb]
  rw [hreg]
  refine ⟨rfl, ?_⟩
  intro name
  by_cases hna : a = name
  · simp [namedCompressionPools.Contains, lookupAssoc, hna]
  · by_cases hnb : b = name
    · simp [namedCompressionPools.Contains, lookupAssoc, hna, hnb]
    · by_cases hnc : c = name
      · simp [namedCompressionPools.Contains, lookupAssoc, hna, hnb, hnc]
      · have h1 : ¬ name = a := fun h => hna h.symm
        have h2 : ¬ name = b := fun h => hnb h.symm
        have h3 : ¬ name = c := fun h => hnc h.symm
        simp [namedCompressionPools.Contains, lookupAssoc, hna, hnb, hnc, h1, h2, h3]

/-- C1 witness for the amended claim, at the distinct names
`"a"`, `"b"`, `"c"`. -/
theorem C1_amended_order_witness :
    ("a" : String) ≠ "b" ∧ ("a" : String) ≠ "c" ∧ ("b" : String) ≠ "c" ∧
    ((registryOfNames ["a", "b", "a", "c"]).CommaSeparatedNames =
        String.intercalate "," ["c", "a", "b"] ∧
      ∀ name, (registryOfNames ["a", "b", "a", "c"]).Contains name = true ↔
        (name = "a" ∨ name = "b" ∨ name = "c")) :=
  ⟨by decide, by decide, by decide,
    C1_amended_order "a" "b" "c" (by decide) (by decide) (by decide)⟩

/-- C5: `connectCodeToHTTP` is total over all `Code` values, maps the listed
codes to the listed HTTP statuses, and maps `CodeUnknown` as well as every
value outside the enumeration range to 500. -/
theorem C5_code_to_http :
    connectCodeToHTTP CodeInvalidArgument = 400 ∧
    connectCodeToHTTP CodeNotFound = 404 ∧
    connectCodeToHTTP CodeResourceExhausted = 429 ∧
    connectCodeToHTTP CodeUnimplemented = 501 ∧
    connectCodeToHTTP CodeUnavailable = 503 ∧
    connectCodeToHTTP CodeUnauthenticated = 401 ∧
    connectCodeToHTTP CodeCanceled = 499 ∧
    connectCodeToHTTP CodeUnknown = 500 ∧
    ∀ code : Code, code < minCode ∨ maxCode < code → connectCodeToHTTP code = 500 := by
  refine ⟨rfl, rfl, rfl, rfl, rfl, rfl, rfl, rfl, ?_⟩
  intro code h
  rcases h with h | h
  · rw [Nat.lt_one_iff.mp h]
    exact rfl
  · obtain ⟨k, hk⟩ := Nat.exists_eq_add_of_le (show 17 ≤ code from h)
    rw [hk, Nat.add_comm]
    exact rfl

/-- C5 witness: the out-of-range code 99 maps to 500. -/
theorem C5_code_to_http_witness :
    ((99 : Code) < minCode ∨ maxCode < (99 : Code)) ∧ connectCodeToHTTP 99 = 500 :=
  ⟨Or.inr (by decide), C5_code_to_http.2.2.2.2.2.2.2.2 99 (Or.inr (by decide))⟩

/-- C8: for a 200 response, the bare JSON subtype and the JSON-with-charset
subtype are accepted as equal in both directions, so
`connectValidateUnaryResponseContentType "json" "POST" 200 ""
"application/json; charset=utf-8"` returns no error. -/
theorem C8_json_charset_equiv :
    connectValidateUnaryResponseContentType "json" "POST" 200 ""
      "application/json; charset=utf-8" = none ∧
    connectValidateUnaryResponseContentType "json; charset=utf-8" "POST" 200 ""
      "application/json" = none := by
  exact ⟨by decide, by decide⟩

/-- C9: `connectValidateUnaryResponseContentType "proto" "GET" 304 "" ""`
returns a wire error with code `CodeUnknown` wrapping the "not modified"
sentinel, and that sentinel is produced exactly when the status is 304 and
the method is GET. -/
theorem C9_not_modified :
    connectValidateUnaryResponseContentType "proto" "GET" 304 "" ""
      = some (NewWireError CodeUnknown errNotModifiedClient) ∧
    ∀ (requestCodecName httpMethod : String) (statusCode : Nat)
      (statusMsg responseContentType : String),
      ((∃ e, connectValidateUnaryResponseContentType requestCodecName httpMethod
          statusCode statusMsg responseContentType = some e ∧
          e.cause = errNotModifiedClient) ↔
        (statusCode = 304 ∧ httpMethod = "GET")) := by
  refine ⟨by decide, ?_⟩
  intro rc m sc sm ct
  constructor
  · rintro ⟨e, he, hcause⟩
    by_contra hne
    unfold connectValidateUnaryResponseContentType at he
    split_ifs at he with h1 h2 h3 h4 h5 <;>
      first
        | exact hne h2
        | simp only [Option.some.injEq] at he
          subst he
          simp [NewError, errorf, errNotModifiedClient] at hcause
  · rintro ⟨h304, hGET⟩
    subst h304
    subst hGET
    refine ⟨NewWireError CodeUnknown errNotModifiedClient, ?_, rfl⟩
    unfold connectValidateUnaryResponseContentType
    simp

/-- C2: every `ErrorDetail` that was unmarshaled from Connect wire JSON
marshals back to exactly the original input bytes, even though no schema is
available to resolve the type URL. -/
theorem C2_detail_roundtrip (data : String) (d : connectWireDetail)
    (h : connectWireDetail.UnmarshalJSON data = some d) :
    connectWireDetail.MarshalJSON d = data := by
  have hne : data ≠ "" := by
    intro he
    subst he
    rw [show connectWireDetail.UnmarshalJSON "" = none from rfl] at h
    exact Option.noConfusion h
  simp only [connectWireDetail.UnmarshalJSON, Option.bind_eq_bind,
    Option.bind_eq_some] at h
  obtain ⟨tv, hf, h⟩ := h
  obtain ⟨decoded, hd, h⟩ := h
  simp only [Option.some.injEq] at h
  subst h
  simp [connectWireDetail.MarshalJSON, hne]

/-- C2 witness: the detail unmarshaled from the wire JSON
`{"type":"x/y","value":"Zm9v"}` marshals back to those exact bytes. -/
theorem C2_detail_roundtrip_witness :
    connectWireDetail.UnmarshalJSON "\x7b\"type\":\"x/y\",\"value\":\"Zm9v\"\x7d"
      = some { pbAny := { typeUrl := "x/y", value := [102, 111, 111] },
               wireJSON := "\x7b\"type\":\"x/y\",\"value\":\"Zm9v\"\x7d",
               pbInner := none } ∧
    connectWireDetail.MarshalJSON
      { pbAny := { typeUrl := "x/y", value := [102, 111, 111] },
        wireJSON := "\x7b\"type\":\"x/y\",\"value\":\"Zm9v\"\x7d",
        pbInner := none }
      = "\x7b\"type\":\"x/y\",\"value\":\"Zm9v\"\x7d" :=
  ⟨by decide, C2_detail_roundtrip _ _ (by decide)⟩

/-- C4: unmarshaling a Connect wire-error JSON document whose `code` field is
an unrecognized, malformed, or out-of-range string does not fail — the
message and details are still deserialized, the code stays at its zero
value, and `asError` normalizes it to `CodeUnknown`; moreover `asError`
normalizes every code outside the 16-value enumeration range to
`CodeUnknown`. -/
theorem C4_lenient_code (s codeStr msg : String) (ds : List connectWireDetail)
    (hfields : decodeWireErrorFields s = some (codeStr, msg, ds))
    (hcode : codeFromString codeStr = none) :
    (∃ we, connectWireError.UnmarshalJSON s = some we ∧
      we.Message = msg ∧ we.Details = ds ∧ we.Code = 0 ∧
      we.asError.code = CodeUnknown) ∧
    ∀ e : connectWireError, e.Code < minCode ∨ maxCode < e.Code →
      e.asError.code = CodeUnknown := by
  constructor
  · refine ⟨{ Code := 0, Message := msg, Details := ds }, ?_, rfl, rfl, rfl, ?_⟩
    · simp [connectWireError.UnmarshalJSON, Option.bind_eq_bind, hfields, hcode]
    · simp only [connectWireError.asError]
      rw [if_pos (Or.inl (show (0 : Code) < minCode by decide))]
  · intro e h
    simp only [connectWireError.asError]
    rw [if_pos h]

/-- C4 witness: the document `{"code":"bogus","message":"oops"}` carries the
unrecognized code string `"bogus"`; it still unmarshals, and `asError`
yields `CodeUnknown`. -/
theorem C4_lenient_code_witness :
    decodeWireErrorFields "\x7b\"code\":\"bogus\",\"message\":\"oops\"\x7d"
        = some ("bogus", "oops", []) ∧
    codeFromString "bogus" = none ∧
    ((∃ we, connectWireError.UnmarshalJSON
          "\x7b\"code\":\"bogus\",\"message\":\"oops\"\x7d" = some we ∧
        we.Message = "oops" ∧ we.Details = [] ∧ we.Code = 0 ∧
        we.asError.code = CodeUnknown) ∧
      ∀ e : connectWireError, e.Code < minCode ∨ maxCode < e.Code →
        e.asError.code = CodeUnknown) :=
  ⟨by decide, by decide,
    C4_lenient_code "\x7b\"code\":\"bogus\",\"message\":\"oops\"\x7d"
      "bogus" "oops" [] (by decide) (by decide)⟩

/-- C3: applying `WithInterceptors(A)` and then `WithInterceptors(B, C)`
produces the same call-wrapping order as applying `WithInterceptors(A, B, C)`
once, for every starting client or handler configuration, and in both cases
the new layers `A`, `B`, `C` wrap in that order (with `A` outermost) inside
any previously configured layers. -/
theorem C3_interceptor_concat (A B C : Interceptor)
    (ccfg : clientConfig) (hcfg : handlerConfig) :
    (wrapOrderOpt ((interceptorsOption.mk [B, C]).applyToClient
          ((interceptorsOption.mk [A]).applyToClient ccfg)).Interceptor =
        wrapOrderOpt ((interceptorsOption.mk [A, B, C]).applyToClient ccfg).Interceptor ∧
      wrapOrderOpt ((interceptorsOption.mk [A, B, C]).applyToClient ccfg).Interceptor =
        wrapOrderOpt ccfg.Interceptor ++ (A.wrapOrder ++ (B.wrapOrder ++ C.wrapOrder))) ∧
    (wrapOrderOpt ((interceptorsOption.mk [B, C]).applyToHandler
          ((interceptorsOption.mk [A]).applyToHandler hcfg)).Interceptor =
        wrapOrderOpt ((interceptorsOption.mk [A, B, C]).applyToHandler hcfg).Interceptor ∧
      wrapOrderOpt ((interceptorsOption.mk [A, B, C]).applyToHandler hcfg).Interceptor =
        wrapOrderOpt hcfg.Interceptor ++ (A.wrapOrder ++ (B.wrapOrder ++ C.wrapOrder))) := by
  constructor
  · cases hc : ccfg.Interceptor with
    | none =>
      simp [interceptorsOption.applyToClient, interceptorsOption.chainWith, hc,
        newChain, wrapOrderOpt, Interceptor.wrapOrder, wrapOrderList]
    | some i =>
      simp [interceptorsOption.applyToClient, interceptorsOption.chainWith, hc,
        newChain, wrapOrderOpt, Interceptor.wrapOrder, wrapOrderList, List.append_assoc]
  · cases hc : hcfg.Interceptor with
    | none =>
      simp [interceptorsOption.applyToHandler, interceptorsOption.chainWith, hc,
        newChain, wrapOrderOpt, Interceptor.wrapOrder, wrapOrderList]
    | some i =>
      simp [interceptorsOption.applyToHandler, interceptorsOption.chainWith, hc,
        newChain, wrapOrderOpt, Interceptor.wrapOrder, wrapOrderList, List.append_assoc]

/-- C10: applying `WithCodec` with a nil codec or a codec whose name is empty
leaves the client and handler configurations completely unchanged. -/
theorem C10_codec_noop (o : codecOption) (ccfg : clientConfig) (hcfg : handlerConfig)
    (h : o.Codec = none ∨ ∃ c, o.Codec = some c ∧ c.name = "") :
    o.applyToClient ccfg = ccfg ∧ o.applyToHandler hcfg = hcfg := by
  rcases h with h | ⟨c, hc, hn⟩
  · exact ⟨by simp [codecOption.applyToClient, h],
      by simp [codecOption.applyToHandler, h]⟩
  · exact ⟨by simp [codecOption.applyToClient, hc, hn],
      by simp [codecOption.applyToHandler, hc, hn]⟩

/-- C10 witness: a codec named `""` applied to concrete configurations is a
no-op on both sides. -/
theorem C10_codec_noop_witness :
    ((codecOption.mk (some { name := "" })).Codec = none ∨
      ∃ c, (codecOption.mk (some { name := "" })).Codec = some c ∧ c.name = "") ∧
    ((codecOption.mk (some { name := "" })).applyToClient
        { Codec := none, Interceptor := none, ReadMaxBytes := 0, SendMaxBytes := 0 } =
        { Codec := none, Interceptor := none, ReadMaxBytes := 0, SendMaxBytes := 0 } ∧
      (codecOption.mk (some { name := "" })).applyToHandler
        { Codecs := [], Interceptor := none, ReadMaxBytes := 0, SendMaxBytes := 0 } =
        { Codecs := [], Interceptor := none, ReadMaxBytes := 0, SendMaxBytes := 0 }) :=
  ⟨Or.inr ⟨{ name := "" }, rfl, rfl⟩,
    C10_codec_noop _ _ _ (Or.inr ⟨{ name := "" }, rfl, rfl⟩)⟩

theorem lowerUntilSemi_append (l₁ l₂ : List Char)
    (h : ∀ c ∈ l₁, ¬ c = ';' ∧ charLower c = c) :
    lowerUntilSemi (l₁ ++ l₂) = l₁ ++ lowerUntilSemi l₂ := by
  induction l₁ with
  | nil => rfl
  | cons c rest ih =>
    obtain ⟨h1, h2⟩ := h c (by simp)
    simp only [List.cons_append, lowerUntilSemi, if_neg h1, h2]
    rw [List.append_eq, ih (fun x hx => h x (by simp [hx]))]

/-- C6: a request is classified as gRPC (and `IsSupported` returns true)
exactly when the method is POST and the canonicalized content-type equals the
default gRPC media type or starts with the gRPC codec prefix; in particular
`IsSupported` holds for a POST with `application/grpc`, with
`application/grpc+unknowncodec`, and with any codec suffix at all. -/
theorem C6_grpc_classification (w : ErrorWriter) :
    (∀ request : HTTPRequest,
      (w.classifyRequest request = protocolType.grpcProtocol ↔
        (request.method = "POST" ∧
          (canonicalizeContentType (getHeaderCanonical request.header headerContentType)
              = grpcContentTypeDefault ∨
            hasPrefixS
              (canonicalizeContentType (getHeaderCanonical request.header headerContentType))
              grpcContentTypePlus = true))) ∧
      (w.IsSupported request = true ↔
        w.classifyRequest request = protocolType.grpcProtocol)) ∧
    w.IsSupported
      { method := "POST", header := [(headerContentType, "application/grpc")] } = true ∧
    w.IsSupported
      { method := "POST",
        header := [(headerContentType, "application/grpc+unknowncodec")] } = true ∧
    ∀ codecSuffix : String,
      w.IsSupported
        { method := "POST",
          header := [(headerContentType, "application/grpc+" ++ codecSuffix)] } = true := by
  refine ⟨?_, rfl, rfl, ?_⟩
  · intro request
    constructor
    · simp only [ErrorWriter.classifyRequest]
      split_ifs with hcond
      · simp [hcond]
      · simp [hcond]
    · cases hcl : w.classifyRequest request with
      | unknownProtocol => simp [ErrorWriter.IsSupported, hcl]
      | grpcProtocol => simp [ErrorWriter.IsSupported, hcl]
  · intro codecSuffix
    have hdata : ("application/grpc+" ++ codecSuffix).data
        = "application/grpc+".data ++ codecSuffix.data := String.data_append _ _
    have hlower : lowerUntilSemi ("application/grpc+".data ++ codecSuffix.data)
        = "application/grpc+".data ++ lowerUntilSemi codecSuffix.data :=
      lowerUntilSemi_append _ _ (by decide)
    have hpre : hasPrefixS (canonicalizeContentType ("application/grpc+" ++ codecSuffix))
        grpcContentTypePlus = true := by
      simp only [canonicalizeContentType, hdata, hlower, hasPrefixS]
      exact List.isPrefixOf_iff_prefix.mpr (List.prefix_append _ _)
    have hcl : w.classifyRequest
        { method := "POST",
          header := [(headerContentType, "application/grpc+" ++ codecSuffix)] }
        = protocolType.grpcProtocol := by
      simp only [ErrorWriter.classifyRequest, getHeaderCanonical, List.lookup,
        beq_self_eq_true, Option.getD_some]
      simp [hpre]
    simp [ErrorWriter.IsSupported, hcl]

/-- C7: for a request classified as gRPC, `Write` echoes the canonicalized
content-type, announces the trailer keys in a `Trailer` header, writes HTTP
status 200, and only then sets the error's status and message as trailers,
returning `nil`; for a request of unknown protocol it performs no write at
all and returns `nil`. -/
theorem C7_error_writer_write (w : ErrorWriter) (request : HTTPRequest) (err : Error) :
    (w.classifyRequest request = protocolType.grpcProtocol →
      w.Write request err =
        ([RWEvent.setHeader headerContentType
            (canonicalizeContentType (getHeaderCanonical request.header headerContentType)),
          RWEvent.setHeader headerTrailer "Grpc-Status,Grpc-Message",
          RWEvent.writeHeader 200,
          RWEvent.setHeader "Grpc-Status" (toString err.code),
          RWEvent.setHeader "Grpc-Message" err.message], none)) ∧
    (w.classifyRequest request = protocolType.unknownProtocol →
      w.Write request err = ([], none)) := by
  constructor
  · intro hcl
    simp [ErrorWriter.Write, hcl, ErrorWriter.writeGRPC, grpcErrorToTrailer]
    rfl
  · intro hcl
    simp [ErrorWriter.Write, hcl]

/-- C7 witness: a concrete gRPC request produces exactly the claimed write
sequence, and a concrete non-RPC request produces no write. -/
theorem C7_error_writer_write_witness :
    ((ErrorWriter.mk { name := "proto" }).classifyRequest
        { method := "POST", header := [(headerContentType, "application/grpc")] }
        = protocolType.grpcProtocol) ∧
    (ErrorWriter.mk { name := "proto" }).Write
        { method := "POST", header := [(headerContentType, "application/grpc")] }
        (NewError CodeUnimplemented (ErrCause.text "no handler")) =
      ([RWEvent.setHeader headerContentType "application/grpc",
        RWEvent.setHeader headerTrailer "Grpc-Status,Grpc-Message",
        RWEvent.writeHeader 200,
        RWEvent.setHeader "Grpc-Status" "12",
        RWEvent.setHeader "Grpc-Message" "no handler"], none) ∧
    ((ErrorWriter.mk { name := "proto" }).classifyRequest
        { method := "GET", header := [] } = protocolType.unknownProtocol) ∧
    (ErrorWriter.mk { name := "proto" }).Write { method := "GET", header := [] }
        (NewError CodeUnimplemented (ErrCause.text "no handler")) = ([], none) := by
  refine ⟨rfl, ?_, rfl, ?_⟩
  · exact (C7_error_writer_write _ _ _).1 rfl
  · exact (C7_error_writer_write _ _ _).2 rfl

end Scalpel
